import Mathlib

/-!
Verification development for the sampled BOUT++ core:

* derivative operator dispatch (`src/src/sys/derivs.cxx`),
* the PETSc solver state-vector codec and time-integration driver
  (`src/unnamed/part_000`, class `PetscSolver`).

Machine reals (`BoutReal`, a C `double`) are modelled by the exact field ℚ,
so every definition is executable.  External collaborators (the mesh's
index-space derivative primitives, metric data, boundary-region iterators)
are fields of an explicit mesh record and remain abstract parameters; the
definitions below translate the control flow and arithmetic of the sampled
source.
-/

namespace BoutV

/-- Model of `BoutReal` (C `double`) as exact rationals. -/
abbrev BoutReal := ℚ

/-! ### Field and mesh data model for the derivative library -/

/-- Staggered-grid cell location tags (`CELL_LOC`). -/
inductive CellLoc
  | CELL_DEFAULT
  | CELL_CENTRE
  | CELL_XLOW
  | CELL_YLOW
  | CELL_ZLOW
deriving DecidableEq

/-- Differencing-method selector (`DIFF_METHOD`); only `DIFF_DEFAULT` is
distinguished by the sampled code, the others are carried opaquely. -/
inductive DiffMethod
  | DIFF_DEFAULT
  | DIFF_C2
  | DIFF_U1
  | DIFF_W3
  | DIFF_FFT
deriving DecidableEq

/-- A 2D (poloidal) scalar field: values indexed by `(x, y)` plus a cell
location tag. -/
structure Field2D where
  data : Nat → Nat → BoutReal
  loc : CellLoc

/-- A 3D scalar field: values indexed by `(x, y, z)` plus a cell location. -/
structure Field3D where
  data : Nat → Nat → Nat → BoutReal
  loc : CellLoc

/-- A 3D vector field: three `Field3D` components plus the basis flag. -/
structure Vector3D where
  x : Field3D
  y : Field3D
  z : Field3D
  covariant : Bool

/-- A 2D vector field: three `Field2D` components plus the basis flag. -/
structure Vector2D where
  x : Field2D
  y : Field2D
  z : Field2D
  covariant : Bool

/-- `Field2D` built from a constant, as in the C++ expression
`Field2D(0.0)`.  Modelled from the spec: the `Field2D` constructor itself is
not under `src/` (only its callers are); a field constructed from a bare
constant has no input to inherit a location from and carries the library-wide
default cell location, cell centre. -/
def Field2D.ofConst (v : BoutReal) : Field2D :=
  { data := fun _ _ => v, loc := CellLoc.CELL_CENTRE }

/-- Metric / coordinate factors (`Coordinates`): grid spacings, non-uniform
correction factors, Christoffel-symbol components, shift torsion. -/
structure Coordinates where
  dx : Field2D
  dy : Field2D
  dz : BoutReal
  d1_dx : Field2D
  d1_dy : Field2D
  non_uniform : Bool
  G1_13 : Field2D
  G2_13 : Field2D
  G3_13 : Field2D
  G1_23 : Field2D
  G2_23 : Field2D
  G3_23 : Field2D
  G1_33 : Field2D
  G2_33 : Field2D
  G3_33 : Field2D
  IntShiftTorsion : Field2D

/-- The mesh interface consumed by the derivative library: coordinates, the
integrated-shear flag, and the index-space derivative primitives.  The
primitives are abstract (they live in the mesh, an external collaborator);
`derivs.cxx` only divides them by metric factors and adds corrections. -/
structure MeshD where
  coords : Coordinates
  IncIntShear : Bool
  indexDDX3 : Field3D → CellLoc → DiffMethod → Field3D
  indexDDY3 : Field3D → CellLoc → DiffMethod → Field3D
  indexDDZ3 : Field3D → CellLoc → DiffMethod → Bool → Field3D
  indexD2DX2_3 : Field3D → CellLoc → DiffMethod → Field3D
  indexD2DY2_3 : Field3D → CellLoc → DiffMethod → Field3D
  indexD2DZ2_3 : Field3D → CellLoc → DiffMethod → Bool → Field3D
  indexDDX2 : Field2D → Field2D
  indexDDY2 : Field2D → Field2D
  indexD2DX2_2 : Field2D → Field2D
  indexD2DY2_2 : Field2D → Field2D
  indexVDDX : Field3D → Field3D → CellLoc → DiffMethod → Field3D
  indexVDDY : Field3D → Field3D → CellLoc → DiffMethod → Field3D
  indexVDDZ : Field3D → Field3D → CellLoc → DiffMethod → Field3D
  indexFDDX3 : Field3D → Field3D → CellLoc → DiffMethod → Field3D
  indexFDDY3 : Field3D → Field3D → CellLoc → DiffMethod → Field3D
  indexFDDZ3 : Field3D → Field3D → CellLoc → DiffMethod → Field3D
  indexFDDX2 : Field2D → Field2D → CellLoc → DiffMethod → Field2D
  indexFDDY2 : Field2D → Field2D → CellLoc → DiffMethod → Field2D
  interp3 : Field3D → CellLoc → Nat → Nat → Nat → BoutReal

/-! Pointwise field arithmetic, as produced by the C++ operator overloads;
a binary operation keeps the location of its (3D, respectively left)
operand. -/

/-- `Field3D / Field2D`, pointwise, broadcast over `z`. -/
def fdiv32 (f : Field3D) (g : Field2D) : Field3D :=
  { data := fun x y z => f.data x y z / g.data x y, loc := f.loc }

/-- `Field3D / BoutReal`, pointwise. -/
def fdivr3 (f : Field3D) (r : BoutReal) : Field3D :=
  { data := fun x y z => f.data x y z / r, loc := f.loc }

/-- `Field2D * Field3D`, pointwise, broadcast over `z`. -/
def fmul23 (g : Field2D) (f : Field3D) : Field3D :=
  { data := fun x y z => g.data x y * f.data x y z, loc := f.loc }

/-- `Field3D * Field2D`, pointwise, broadcast over `z`. -/
def fmul32 (f : Field3D) (g : Field2D) : Field3D :=
  { data := fun x y z => f.data x y z * g.data x y, loc := f.loc }

/-- `Field3D + Field3D`, pointwise. -/
def fadd3 (f g : Field3D) : Field3D :=
  { data := fun x y z => f.data x y z + g.data x y z, loc := f.loc }

/-- `Field3D - Field3D`, pointwise. -/
def fsub3 (f g : Field3D) : Field3D :=
  { data := fun x y z => f.data x y z - g.data x y z, loc := f.loc }

/-- `Field2D / Field2D`, pointwise. -/
def fdiv22 (f g : Field2D) : Field2D :=
  { data := fun x y => f.data x y / g.data x y, loc := f.loc }

/-- `Field2D * Field2D`, pointwise. -/
def fmul22 (f g : Field2D) : Field2D :=
  { data := fun x y => f.data x y * g.data x y, loc := f.loc }

/-- `Field2D + Field2D`, pointwise. -/
def fadd2 (f g : Field2D) : Field2D :=
  { data := fun x y => f.data x y + g.data x y, loc := f.loc }

/-- The `SQ` macro, `SQ(x) = x * x`, on a `Field2D`. -/
def SQ2 (f : Field2D) : Field2D := fmul22 f f

/-- `interp_to(var, loc)`.  Modelled from the spec: `interpolation.cxx` is
not under `src/`; per the spec, interpolation onto a target location is
performed only when the field's current location differs from the target,
otherwise the field passes through unchanged.  The interpolation stencil
itself is the mesh's abstract `interp3` data. -/
def interp_to (M : MeshD) (f : Field3D) (loc : CellLoc) : Field3D :=
  if f.loc = loc then f else { data := M.interp3 f loc, loc := loc }

/-! ### First central derivatives (`derivs.cxx` lines 60–165) -/

/-- `DDZ(const Field3D &f, CELL_LOC outloc, DIFF_METHOD method, bool inc_xbndry)`. -/
def DDZ_3D_lm (M : MeshD) (f : Field3D) (outloc : CellLoc) (method : DiffMethod)
    (inc_xbndry : Bool) : Field3D :=
  fdivr3 (M.indexDDZ3 f outloc method inc_xbndry) M.coords.dz

/-- `DDZ(const Field3D &f, DIFF_METHOD method, CELL_LOC outloc, bool inc_xbndry)`. -/
def DDZ_3D_ml (M : MeshD) (f : Field3D) (method : DiffMethod) (outloc : CellLoc)
    (inc_xbndry : Bool) : Field3D :=
  DDZ_3D_lm M f outloc method inc_xbndry

/-- `DDX(const Field3D &f, CELL_LOC outloc, DIFF_METHOD method)`.  The call
`DDZ(f, outloc)` in its body uses the header defaults `DIFF_DEFAULT` and
`inc_xbndry = false`. -/
def DDX_3D_lm (M : MeshD) (f : Field3D) (outloc : CellLoc) (method : DiffMethod) :
    Field3D :=
  let result := fdiv32 (M.indexDDX3 f outloc method) M.coords.dx
  if M.IncIntShear then
    fadd3 result
      (fmul23 M.coords.IntShiftTorsion
        (DDZ_3D_lm M f outloc DiffMethod.DIFF_DEFAULT false))
  else result

/-- `DDX(const Field3D &f, DIFF_METHOD method, CELL_LOC outloc)`. -/
def DDX_3D_ml (M : MeshD) (f : Field3D) (method : DiffMethod) (outloc : CellLoc) :
    Field3D :=
  DDX_3D_lm M f outloc method

/-- `DDY(const Field3D &f, CELL_LOC outloc, DIFF_METHOD method)`. -/
def DDY_3D_lm (M : MeshD) (f : Field3D) (outloc : CellLoc) (method : DiffMethod) :
    Field3D :=
  fdiv32 (M.indexDDY3 f outloc method) M.coords.dy

/-- `DDY(const Field3D &f, DIFF_METHOD method, CELL_LOC outloc)`. -/
def DDY_3D_ml (M : MeshD) (f : Field3D) (method : DiffMethod) (outloc : CellLoc) :
    Field3D :=
  DDY_3D_lm M f outloc method

/-- `DDZ(const Field2D &UNUSED(f))`: returns `Field2D(0.0)`. -/
def DDZ_2D (_f : Field2D) : Field2D :=
  Field2D.ofConst 0

/-- `DDZ(const Vector3D &v, CELL_LOC outloc, DIFF_METHOD method)`:
Z-derivative of a 3D vector with Christoffel-symbol corrections
(D'Haeseleer equations 2.6.32 / 2.6.31). -/
def DDZ_V3_lm (M : MeshD) (v : Vector3D) (outloc : CellLoc) (method : DiffMethod) :
    Vector3D :=
  let metric := M.coords
  if v.covariant then
    { x := fsub3 (fsub3 (fsub3 (DDZ_3D_lm M v.x outloc method false)
          (fmul32 v.x metric.G1_13)) (fmul32 v.y metric.G2_13))
          (fmul32 v.z metric.G3_13),
      y := fsub3 (fsub3 (fsub3 (DDZ_3D_lm M v.y outloc method false)
          (fmul32 v.x metric.G1_23)) (fmul32 v.y metric.G2_23))
          (fmul32 v.z metric.G3_23),
      z := fsub3 (fsub3 (fsub3 (DDZ_3D_lm M v.z outloc method false)
          (fmul32 v.x metric.G1_33)) (fmul32 v.y metric.G2_33))
          (fmul32 v.z metric.G3_33),
      covariant := true }
  else
    { x := fadd3 (fadd3 (fadd3 (DDZ_3D_lm M v.x outloc method false)
          (fmul32 v.x metric.G1_13)) (fmul32 v.y metric.G1_23))
          (fmul32 v.z metric.G1_33),
      y := fadd3 (fadd3 (fadd3 (DDZ_3D_lm M v.y outloc method false)
          (fmul32 v.x metric.G2_13)) (fmul32 v.y metric.G2_23))
          (fmul32 v.z metric.G2_33),
      z := fadd3 (fadd3 (fadd3 (DDZ_3D_lm M v.z outloc method false)
          (fmul32 v.x metric.G3_13)) (fmul32 v.y metric.G3_23))
          (fmul32 v.z metric.G3_33),
      covariant := false }

/-- `DDZ(const Vector3D &v, DIFF_METHOD method, CELL_LOC outloc)`. -/
def DDZ_V3_ml (M : MeshD) (v : Vector3D) (method : DiffMethod) (outloc : CellLoc) :
    Vector3D :=
  DDZ_V3_lm M v outloc method

/-- `DDZ(const Vector2D &v)`: a 2D vector is constant in the z direction, so
all three result components are assigned `0.` and only the basis flag is
copied from the input. -/
def DDZ_V2 (v : Vector2D) : Vector2D :=
  { covariant := v.covariant,
    x := Field2D.ofConst 0,
    y := Field2D.ofConst 0,
    z := Field2D.ofConst 0 }

/-! ### Second derivatives (`derivs.cxx` lines 167–244) -/

/-- `D2DX2(const Field3D &f, CELL_LOC outloc, DIFF_METHOD method)`. -/
def D2DX2_3D_lm (M : MeshD) (f : Field3D) (outloc : CellLoc) (method : DiffMethod) :
    Field3D :=
  let result := fdiv32 (M.indexD2DX2_3 f outloc method) (SQ2 M.coords.dx)
  if M.coords.non_uniform then
    fadd3 result
      (fdiv32 (fmul23 M.coords.d1_dx (M.indexDDX3 f outloc DiffMethod.DIFF_DEFAULT))
        M.coords.dx)
  else result

/-- `D2DX2(const Field3D &f, DIFF_METHOD method, CELL_LOC outloc)`. -/
def D2DX2_3D_ml (M : MeshD) (f : Field3D) (method : DiffMethod) (outloc : CellLoc) :
    Field3D :=
  D2DX2_3D_lm M f outloc method

/-- `D2DX2(const Field2D &f)`. -/
def D2DX2_2D (M : MeshD) (f : Field2D) : Field2D :=
  let result := fdiv22 (M.indexD2DX2_2 f) (SQ2 M.coords.dx)
  if M.coords.non_uniform then
    fadd2 result (fdiv22 (fmul22 M.coords.d1_dx (M.indexDDX2 f)) M.coords.dx)
  else result

/-- `D2DY2(const Field3D &f, CELL_LOC outloc, DIFF_METHOD method)`; note the
final `interp_to(result, outloc)`. -/
def D2DY2_3D_lm (M : MeshD) (f : Field3D) (outloc : CellLoc) (method : DiffMethod) :
    Field3D :=
  let result := fdiv32 (M.indexD2DY2_3 f outloc method) (SQ2 M.coords.dy)
  let result :=
    if M.coords.non_uniform then
      fadd3 result
        (fdiv32 (fmul23 M.coords.d1_dy (M.indexDDY3 f outloc DiffMethod.DIFF_DEFAULT))
          M.coords.dy)
    else result
  interp_to M result outloc

/-- `D2DY2(const Field3D &f, DIFF_METHOD method, CELL_LOC outloc)`. -/
def D2DY2_3D_ml (M : MeshD) (f : Field3D) (method : DiffMethod) (outloc : CellLoc) :
    Field3D :=
  D2DY2_3D_lm M f outloc method

/-- `D2DY2(const Field2D &f)`. -/
def D2DY2_2D (M : MeshD) (f : Field2D) : Field2D :=
  let result := fdiv22 (M.indexD2DY2_2 f) (SQ2 M.coords.dy)
  if M.coords.non_uniform then
    fadd2 result (fdiv22 (fmul22 M.coords.d1_dy (M.indexDDY2 f)) M.coords.dy)
  else result

/-- `D2DZ2(const Field3D &f, CELL_LOC outloc, DIFF_METHOD method, bool inc_xbndry)`. -/
def D2DZ2_3D_lm (M : MeshD) (f : Field3D) (outloc : CellLoc) (method : DiffMethod)
    (inc_xbndry : Bool) : Field3D :=
  fdivr3 (M.indexD2DZ2_3 f outloc method inc_xbndry) (M.coords.dz * M.coords.dz)

/-- `D2DZ2(const Field3D &f, DIFF_METHOD method, CELL_LOC outloc, bool inc_xbndry)`. -/
def D2DZ2_3D_ml (M : MeshD) (f : Field3D) (method : DiffMethod) (outloc : CellLoc)
    (inc_xbndry : Bool) : Field3D :=
  D2DZ2_3D_lm M f outloc method inc_xbndry

/-- `D2DZ2(const Field2D &UNUSED(f))`: returns `Field2D(0.0)`. -/
def D2DZ2_2D (_f : Field2D) : Field2D :=
  Field2D.ofConst 0

/-! ### Advection (VDD*) and flux (FDD*) operators with both parameter orders
(`derivs.cxx` lines 341–486) -/

/-- `VDDX(const Field &v, const Field &f, CELL_LOC outloc, DIFF_METHOD method)`. -/
def VDDX_lm (M : MeshD) (v f : Field3D) (outloc : CellLoc) (method : DiffMethod) :
    Field3D :=
  fdiv32 (M.indexVDDX v f outloc method) M.coords.dx

/-- `VDDX(const Field &v, const Field &f, DIFF_METHOD method, CELL_LOC outloc)`. -/
def VDDX_ml (M : MeshD) (v f : Field3D) (method : DiffMethod) (outloc : CellLoc) :
    Field3D :=
  VDDX_lm M v f outloc method

/-- `VDDY(const Field &v, const Field &f, CELL_LOC outloc, DIFF_METHOD method)`. -/
def VDDY_lm (M : MeshD) (v f : Field3D) (outloc : CellLoc) (method : DiffMethod) :
    Field3D :=
  fdiv32 (M.indexVDDY v f outloc method) M.coords.dy

/-- `VDDY(const Field &v, const Field &f, DIFF_METHOD method, CELL_LOC outloc)`. -/
def VDDY_ml (M : MeshD) (v f : Field3D) (method : DiffMethod) (outloc : CellLoc) :
    Field3D :=
  VDDY_lm M v f outloc method

/-- `VDDZ(const Field &v, const Field &f, CELL_LOC outloc, DIFF_METHOD method)`. -/
def VDDZ_lm (M : MeshD) (v f : Field3D) (outloc : CellLoc) (method : DiffMethod) :
    Field3D :=
  fdivr3 (M.indexVDDZ v f outloc method) M.coords.dz

/-- `VDDZ(const Field &v, const Field &f, DIFF_METHOD method, CELL_LOC outloc)`. -/
def VDDZ_ml (M : MeshD) (v f : Field3D) (method : DiffMethod) (outloc : CellLoc) :
    Field3D :=
  VDDZ_lm M v f outloc method

/-- `FDDX(const Field2D &v, const Field2D &f, CELL_LOC outloc, DIFF_METHOD method)`. -/
def FDDX_2D_lm (M : MeshD) (v f : Field2D) (outloc : CellLoc) (method : DiffMethod) :
    Field2D :=
  fdiv22 (M.indexFDDX2 v f outloc method) M.coords.dx

/-- `FDDX(const Field2D &v, const Field2D &f, DIFF_METHOD method, CELL_LOC outloc)`. -/
def FDDX_2D_ml (M : MeshD) (v f : Field2D) (method : DiffMethod) (outloc : CellLoc) :
    Field2D :=
  FDDX_2D_lm M v f outloc method

/-- `FDDX(const Field3D &v, const Field3D &f, CELL_LOC outloc, DIFF_METHOD method)`. -/
def FDDX_3D_lm (M : MeshD) (v f : Field3D) (outloc : CellLoc) (method : DiffMethod) :
    Field3D :=
  fdiv32 (M.indexFDDX3 v f outloc method) M.coords.dx

/-- `FDDX(const Field3D &v, const Field3D &f, DIFF_METHOD method, CELL_LOC outloc)`. -/
def FDDX_3D_ml (M : MeshD) (v f : Field3D) (method : DiffMethod) (outloc : CellLoc) :
    Field3D :=
  FDDX_3D_lm M v f outloc method

/-- `FDDY(const Field2D &v, const Field2D &f, CELL_LOC outloc, DIFF_METHOD method)`. -/
def FDDY_2D_lm (M : MeshD) (v f : Field2D) (outloc : CellLoc) (method : DiffMethod) :
    Field2D :=
  fdiv22 (M.indexFDDY2 v f outloc method) M.coords.dy

/-- `FDDY(const Field2D &v, const Field2D &f, DIFF_METHOD method, CELL_LOC outloc)`. -/
def FDDY_2D_ml (M : MeshD) (v f : Field2D) (method : DiffMethod) (outloc : CellLoc) :
    Field2D :=
  FDDY_2D_lm M v f outloc method

/-- `FDDY(const Field3D &v, const Field3D &f, CELL_LOC outloc, DIFF_METHOD method)`. -/
def FDDY_3D_lm (M : MeshD) (v f : Field3D) (outloc : CellLoc) (method : DiffMethod) :
    Field3D :=
  fdiv32 (M.indexFDDY3 v f outloc method) M.coords.dy

/-- `FDDY(const Field3D &v, const Field3D &f, DIFF_METHOD method, CELL_LOC outloc)`. -/
def FDDY_3D_ml (M : MeshD) (v f : Field3D) (method : DiffMethod) (outloc : CellLoc) :
    Field3D :=
  FDDY_3D_lm M v f outloc method

/-- `FDDZ(const Field2D &, const Field2D &, DIFF_METHOD, CELL_LOC)`:
no toroidal compression term is tracked, so the 2D flux Z-derivative is the
zero field. -/
def FDDZ_2D_ml (_v _f : Field2D) (_method : DiffMethod) (_outloc : CellLoc) :
    Field2D :=
  Field2D.ofConst 0

/-- `FDDZ(const Field2D &v, const Field2D &f, CELL_LOC outloc, DIFF_METHOD method)`:
delegates to the method-then-location overload. -/
def FDDZ_2D_lm (v f : Field2D) (outloc : CellLoc) (method : DiffMethod) : Field2D :=
  FDDZ_2D_ml v f method outloc

/-- `FDDZ(const Field3D &v, const Field3D &f, CELL_LOC outloc, DIFF_METHOD method)`. -/
def FDDZ_3D_lm (M : MeshD) (v f : Field3D) (outloc : CellLoc) (method : DiffMethod) :
    Field3D :=
  fdivr3 (M.indexFDDZ3 v f outloc method) M.coords.dz

/-- `FDDZ(const Field3D &v, const Field3D &f, DIFF_METHOD method, CELL_LOC outloc)`. -/
def FDDZ_3D_ml (M : MeshD) (v f : Field3D) (method : DiffMethod) (outloc : CellLoc) :
    Field3D :=
  FDDZ_3D_lm M v f outloc method

/-! ### Time integration driver state (`PetscSolver`) -/

/-- The driver state touched by the scheduling part of `PetscSolver::rhs` and
by `PreStep`: recorded simulation time, next scheduled output time, fixed
output interval (`tstep`), output iteration counter, per-interval performance
counters, and the "this step ends an output interval" flag. -/
structure PetscSolverState where
  simtime : BoutReal
  next_time : BoutReal
  tstep : BoutReal
  iteration : Nat
  rhs_ncalls : Nat
  rhs_wtime : BoutReal
  outputnext : Bool
deriving DecidableEq

/-- The scheduling tail of `PetscSolver::rhs(ts, t, udata, dudata)`
(`part_000` lines 309–340), after the LOAD / user-RHS / SAVE_DERIVS steps
(which touch only the codec state, not these fields): record `simtime = t`;
then, if `t >= next_time`, increment `iteration`, reset `rhs_ncalls` and
`rhs_wtime`, clear `outputnext` and set `next_time = simtime + tstep`. -/
def rhsMonitor (s : PetscSolverState) (t : BoutReal) : PetscSolverState :=
  let s1 := { s with simtime := t }
  if t ≥ s1.next_time then
    { s1 with
      iteration := s1.iteration + 1,
      rhs_ncalls := 0,
      rhs_wtime := 0,
      outputnext := false,
      next_time := s1.simtime + s1.tstep }
  else s1

/-- The external integrator state visible to `PreStep`: current time and the
integrator's stored next sub-step size (`TSGetTime` / `TSGetTimeStep` copy
these out by value). -/
structure TSState where
  t : BoutReal
  dt : BoutReal
deriving DecidableEq

/-- `PreStep(TS ts)` (`part_000` lines 573–595): copies `t` and `dt` out of
the integrator; if `t + dt` reaches or passes `next_time` it assigns the
clamped value to the local variable `dt` and sets `outputnext`, otherwise it
clears `outputnext`.  The local `dt` is never written back to the integrator
(there is no `TSSetTimeStep` call), so the returned integrator state is
unchanged. -/
def PreStep (ts : TSState) (s : PetscSolverState) : TSState × PetscSolverState :=
  let t := ts.t
  let dt := ts.dt
  if t + dt ≥ s.next_time then
    let _dt := s.next_time - t
    (ts, { s with outputnext := true })
  else
    (ts, { s with outputnext := false })

/-! ### State vector codec (`PetscSolver::loop_vars`, `loop_vars_op`,
`save_vars`, `load_vars`) -/

/-- The mesh structure consumed by the codec: local index ranges, guard-cell
bounds, global-boundary ownership flags, and the ordered lower and upper Y
boundary iterators (`iterateBndryLowerY` / `iterateBndryUpperY`, modelled as
the lists of x-indices they yield, in iteration order). -/
structure Mesh where
  xstart : Nat
  xend : Nat
  ystart : Nat
  yend : Nat
  ngx : Nat
  ngy : Nat
  ngz : Nat
  firstX : Bool
  lastX : Bool
  lowerY : List Nat
  upperY : List Nat

/-- The list `[a, a+1, …, b-1]`, the iteration space of `for (j = a; j < b; j++)`
(empty when `b ≤ a`, as in C). -/
def rangeLT (a b : Nat) : List Nat :=
  (List.range (b - a)).map (fun k => a + k)

/-- The list `[a, a+1, …, b]`, the iteration space of `for (j = a; j <= b; j++)`
(empty when `b + 1 ≤ a`, as in C). -/
def rangeLE (a b : Nat) : List Nat :=
  (List.range (b + 1 - a)).map (fun k => a + k)

/-- `SOLVER_VAR_OP`: the three codec operation modes. -/
inductive SVarOp
  | LOAD_VARS
  | SAVE_VARS
  | SAVE_DERIVS
deriving DecidableEq

/-- A single scalar cell of the registry: the `i`-th registered 2D variable at
point `(jx, jy)`, or the `i`-th registered 3D variable at `(jx, jy, jz)`. -/
inductive Slot
  | s2 (i jx jy : Nat)
  | s3 (i jx jy jz : Nat)
deriving DecidableEq, Inhabited

/-- A registered 2D variable (`VarStr<Field2D>`): evolving field data (possibly
unallocated, i.e. `getData() == NULL`) and its time derivative. -/
structure VarStr2 where
  var : Option (Nat → Nat → BoutReal)
  F_var : Nat → Nat → BoutReal

/-- A registered 3D variable (`VarStr<Field3D>`): evolving field data (possibly
unallocated), its time derivative, the declared cell location, and the field's
current location tag. -/
structure VarStr3 where
  var : Option (Nat → Nat → Nat → BoutReal)
  F_var : Nat → Nat → Nat → BoutReal
  location : CellLoc
  varLoc : CellLoc

/-- A registered vector variable: its current basis flag (`var->covariant`)
and the declared basis (`VarStr.covariant`).  The component scalar fields live
in the `f2d` / `f3d` registries. -/
structure VecStr where
  curCovariant : Bool
  covariant : Bool

/-- The solver's variable registry (`f2d`, `f3d`, `v2d`, `v3d`). -/
structure SState where
  f2d : List VarStr2
  f3d : List VarStr3
  v2d : List VecStr
  v3d : List VecStr

/-- Replace the `i`-th element of a list by `f` of it (out-of-range: no-op). -/
def modifyAt : List α → Nat → (α → α) → List α
  | [], _, _ => []
  | a :: l, 0, f => f a :: l
  | a :: l, n + 1, f => a :: modifyAt l n f

/-- Point update of 2D data: `d[jx][jy] = v`. -/
def upd2 (d : Nat → Nat → BoutReal) (jx jy : Nat) (v : BoutReal) :
    Nat → Nat → BoutReal :=
  fun x y => if x = jx ∧ y = jy then v else d x y

/-- Point update of 3D data: `d[jx][jy][jz] = v`. -/
def upd3 (d : Nat → Nat → Nat → BoutReal) (jx jy jz : Nat) (v : BoutReal) :
    Nat → Nat → Nat → BoutReal :=
  fun x y z => if x = jx ∧ y = jy ∧ z = jz then v else d x y z

/-- Point update of the flat buffer: `udata[p] = v`. -/
def updB (b : Nat → BoutReal) (p : Nat) (v : BoutReal) : Nat → BoutReal :=
  fun q => if q = p then v else b q

/-- Read the evolving-variable value of a slot (`f2d[i].var->getData()[jx][jy]`
etc.); an unallocated or out-of-range variable reads as 0. -/
def slotVal (s : SState) : Slot → BoutReal
  | .s2 i jx jy =>
    match s.f2d[i]? with
    | some vs => (vs.var.getD (fun _ _ => 0)) jx jy
    | none => 0
  | .s3 i jx jy jz =>
    match s.f3d[i]? with
    | some vs => (vs.var.getD (fun _ _ _ => 0)) jx jy jz
    | none => 0

/-- Read the time-derivative value of a slot (`f2d[i].F_var->getData()` etc.). -/
def slotFVal (s : SState) : Slot → BoutReal
  | .s2 i jx jy =>
    match s.f2d[i]? with
    | some vs => vs.F_var jx jy
    | none => 0
  | .s3 i jx jy jz =>
    match s.f3d[i]? with
    | some vs => vs.F_var jx jy jz
    | none => 0

/-- Write a value into the evolving variable of a slot (a write through
`getData()`; performed only when the storage is allocated). -/
def setSlot (s : SState) (sl : Slot) (v : BoutReal) : SState :=
  match sl with
  | .s2 i jx jy =>
    { s with
      f2d := modifyAt s.f2d i (fun vs => { vs with var := vs.var.map (fun d => upd2 d jx jy v) }) }
  | .s3 i jx jy jz =>
    { s with
      f3d := modifyAt s.f3d i (fun vs => { vs with var := vs.var.map (fun d => upd3 d jx jy jz v) }) }

/-- The state threaded through the codec loops: registry, flat buffer
(`udata`), and the running buffer position `p`. -/
structure LState where
  s : SState
  buf : Nat → BoutReal
  p : Nat

/-- `PetscSolver::loop_vars_op(jx, jy, udata, p, op)` (`part_000` lines
354–428): at one spatial point, for LOAD copy `udata[p]` into each 2D variable
then, per toroidal plane `jz < ngz-1`, into each 3D variable; for SAVE_VARS
copy the variables' values into `udata`; for SAVE_DERIVS copy the
time-derivative values.  `n2d`/`n3d` are the registry sizes read at entry. -/
def loop_vars_op (nz : Nat) (jx jy : Nat) (op : SVarOp) (st : LState) : LState :=
  let n2d := st.s.f2d.length
  let n3d := st.s.f3d.length
  match op with
  | .LOAD_VARS =>
    let st1 := (List.range n2d).foldl
      (fun a i =>
        { a with s := setSlot a.s (.s2 i jx jy) (a.buf a.p), p := a.p + 1 }) st
    (List.range nz).foldl
      (fun a jz => (List.range n3d).foldl
        (fun a i =>
          { a with s := setSlot a.s (.s3 i jx jy jz) (a.buf a.p), p := a.p + 1 }) a)
      st1
  | .SAVE_VARS =>
    let st1 := (List.range n2d).foldl
      (fun a i =>
        { a with buf := updB a.buf a.p (slotVal a.s (.s2 i jx jy)), p := a.p + 1 }) st
    (List.range nz).foldl
      (fun a jz => (List.range n3d).foldl
        (fun a i =>
          { a with buf := updB a.buf a.p (slotVal a.s (.s3 i jx jy jz)),
                   p := a.p + 1 }) a)
      st1
  | .SAVE_DERIVS =>
    let st1 := (List.range n2d).foldl
      (fun a i =>
        { a with buf := updB a.buf a.p (slotFVal a.s (.s2 i jx jy)), p := a.p + 1 }) st
    (List.range nz).foldl
      (fun a jz => (List.range n3d).foldl
        (fun a i =>
          { a with buf := updB a.buf a.p (slotFVal a.s (.s3 i jx jy jz)),
                   p := a.p + 1 }) a)
      st1

/-- `PetscSolver::loop_vars(udata, op)` (`part_000` lines 431–472): visit the
inner-X boundary stripe (on the owning process), the lower-Y boundary region,
the interior bulk, the upper-Y boundary region, and the outer-X boundary
stripe (on the owning process), calling `loop_vars_op` at each point. -/
def loop_vars (m : Mesh) (op : SVarOp) (st0 : LState) : LState :=
  let MYSUB := m.yend + 1 - m.ystart
  -- Inner X boundary
  let st1 :=
    if m.firstX then
      (List.range m.xstart).foldl
        (fun a jx => (List.range MYSUB).foldl
          (fun a jy => loop_vars_op (m.ngz - 1) jx (jy + m.ystart) op a) a) st0
    else st0
  -- Lower Y boundary region
  let st2 := m.lowerY.foldl
    (fun a xi => (List.range m.ystart).foldl
      (fun a jy => loop_vars_op (m.ngz - 1) xi jy op a) a) st1
  -- Bulk of points
  let st3 := (rangeLE m.xstart m.xend).foldl
    (fun a jx => (rangeLE m.ystart m.yend).foldl
      (fun a jy => loop_vars_op (m.ngz - 1) jx jy op a) a) st2
  -- Upper Y boundary condition
  let st4 := m.upperY.foldl
    (fun a xi => (rangeLT (m.yend + 1) m.ngy).foldl
      (fun a jy => loop_vars_op (m.ngz - 1) xi jy op a) a) st3
  -- Outer X boundary
  if m.lastX then
    (rangeLT (m.xend + 1) m.ngx).foldl
      (fun a jx => (rangeLE m.ystart m.yend).foldl
        (fun a jy => loop_vars_op (m.ngz - 1) jx jy op a) a) st4
  else st4

/-- Basis reconciliation of one registered 2D vector, as invoked by
`save_vars`/`save_derivs`: `if (v2d[i].covariant) var->toCovariant(); else
var->toContravariant();`.  Modelled from the spec: `Vector2D::toCovariant` /
`toContravariant` are not under `src/`; per the spec a vector's basis is
*reconciled* to its declared basis, so when the current flag already matches
the declared one the conversion does nothing, and otherwise an (abstract)
component transformation `T` is applied and the flag is set to the declared
basis. -/
def reconcile2 (T : Nat → SState → SState) (i : Nat) (s : SState) : SState :=
  match s.v2d[i]? with
  | none => s
  | some w =>
    if w.curCovariant = w.covariant then s
    else
      let s' := T i s
      { s' with v2d := modifyAt s'.v2d i (fun u => { u with curCovariant := u.covariant }) }

/-- Basis reconciliation of one registered 3D vector (see `reconcile2`). -/
def reconcile3 (T : Nat → SState → SState) (i : Nat) (s : SState) : SState :=
  match s.v3d[i]? with
  | none => s
  | some w =>
    if w.curCovariant = w.covariant then s
    else
      let s' := T i s
      { s' with v3d := modifyAt s'.v3d i (fun u => { u with curCovariant := u.covariant }) }

/-- The "make sure vectors in correct basis" loops of `save_vars`
(`part_000` lines 509–521). -/
def reconcileAll (T2 T3 : Nat → SState → SState) (s : SState) : SState :=
  let s1 := (List.range s.v2d.length).foldl (fun a i => reconcile2 T2 i a) s
  (List.range s1.v3d.length).foldl (fun a i => reconcile3 T3 i a) s1

/-- `PetscSolver::save_vars(BoutReal *udata)` (`part_000` lines 497–526):
return 1 if any registered 2D or 3D variable's backing storage is unallocated
(before touching anything); otherwise reconcile every vector to its declared
basis, run the SAVE_VARS traversal, and return 0.  The returned triple is
(status, registry state, buffer) — the C++ function works in place and
returns only the status. -/
def save_vars (T2 T3 : Nat → SState → SState) (m : Mesh) (s : SState)
    (buf : Nat → BoutReal) : Nat × SState × (Nat → BoutReal) :=
  if s.f2d.any (fun vs => vs.var.isNone) then (1, s, buf)
  else if s.f3d.any (fun vs => vs.var.isNone) then (1, s, buf)
  else
    let s1 := reconcileAll T2 T3 s
    let a := loop_vars m .SAVE_VARS { s := s1, buf := buf, p := 0 }
    (0, a.s, a.buf)

/-- The "make sure data is allocated" loops of `load_vars` (`part_000` lines
478–484): allocate every variable's storage — a no-op when already allocated,
fresh storage uninitialised (modelled as 0) — and restore each 3D variable's
declared cell location (`setLocation`). -/
def allocAll (s : SState) : SState :=
  { s with
    f2d := s.f2d.map (fun vs => { vs with var := some (vs.var.getD (fun _ _ => 0)) }),
    f3d := s.f3d.map (fun vs =>
      { vs with var := some (vs.var.getD (fun _ _ _ => 0)), varLoc := vs.location }) }

/-- `PetscSolver::load_vars(BoutReal *udata)` (`part_000` lines 474–494):
allocate storage and restore declared 3D locations, run the LOAD_VARS
traversal, then mark each vector's basis flag with its declared basis. -/
def load_vars (m : Mesh) (s : SState) (buf : Nat → BoutReal) : SState :=
  let a := loop_vars m .LOAD_VARS { s := allocAll s, buf := buf, p := 0 }
  { a.s with
    v2d := a.s.v2d.map (fun w => { w with curCovariant := w.covariant }),
    v3d := a.s.v3d.map (fun w => { w with curCovariant := w.covariant }) }

/-! ### The spec-side canonical traversal order -/

/-- Spec traversal, region 1: the inner-X boundary stripe, present only on the
process owning the global inner-X boundary, iterated outer-X-index then
Y-index over the guard columns and the process's Y subdomain. -/
def specInnerX (m : Mesh) : List (Nat × Nat) :=
  if m.firstX then
    (List.range m.xstart).flatMap
      (fun jx => (List.range (m.yend + 1 - m.ystart)).map (fun jy => (jx, jy + m.ystart)))
  else []

/-- Spec traversal, region 2: the lower-Y boundary region, iterated
boundary-iterator index then Y-index. -/
def specLowerY (m : Mesh) : List (Nat × Nat) :=
  m.lowerY.flatMap (fun xi => (List.range m.ystart).map (fun jy => (xi, jy)))

/-- Spec traversal, region 3: the interior bulk, X outer, Y inner. -/
def specBulk (m : Mesh) : List (Nat × Nat) :=
  (rangeLE m.xstart m.xend).flatMap
    (fun jx => (rangeLE m.ystart m.yend).map (fun jy => (jx, jy)))

/-- Spec traversal, region 4: the upper-Y boundary region, iterated
boundary-iterator index then Y-index. -/
def specUpperY (m : Mesh) : List (Nat × Nat) :=
  m.upperY.flatMap (fun xi => (rangeLT (m.yend + 1) m.ngy).map (fun jy => (xi, jy)))

/-- Spec traversal, region 5: the outer-X boundary stripe, present only on the
owning process, X outer, Y inner. -/
def specOuterX (m : Mesh) : List (Nat × Nat) :=
  if m.lastX then
    (rangeLT (m.xend + 1) m.ngx).flatMap
      (fun jx => (rangeLE m.ystart m.yend).map (fun jy => (jx, jy)))
  else []

/-- The spec's canonical point order: the five regions in sequence. -/
def specPoints (m : Mesh) : List (Nat × Nat) :=
  specInnerX m ++ specLowerY m ++ specBulk m ++ specUpperY m ++ specOuterX m

/-- The spec's per-point layout: all 2D variables first, in registration
order; then, for each toroidal plane `0 … planes-1`, all 3D variables in
registration order. -/
def specSlotsAt (n2d n3d planes jx jy : Nat) : List Slot :=
  (List.range n2d).map (fun i => Slot.s2 i jx jy) ++
  (List.range planes).flatMap (fun jz => (List.range n3d).map (fun i => Slot.s3 i jx jy jz))

/-- The spec's canonical flat-buffer layout: slot `q` of this list occupies
buffer position `q` (the number of toroidal planes is `ngz - 1`). -/
def specTraversal (m : Mesh) (n2d n3d : Nat) : List Slot :=
  (specPoints m).flatMap (fun q => specSlotsAt n2d n3d (m.ngz - 1) q.1 q.2)

/-- One slot-sized step of a codec operation, used to state that the codec
follows the canonical slot order: LOAD writes `udata[p]` into the slot, the
SAVE modes write the slot's (respectively derivative) value into `udata[p]`,
and `p` advances by one. -/
def applySlot (op : SVarOp) (a : LState) (sl : Slot) : LState :=
  match op with
  | .LOAD_VARS => { a with s := setSlot a.s sl (a.buf a.p), p := a.p + 1 }
  | .SAVE_VARS => { a with buf := updB a.buf a.p (slotVal a.s sl), p := a.p + 1 }
  | .SAVE_DERIVS => { a with buf := updB a.buf a.p (slotFVal a.s sl), p := a.p + 1 }

/-! ### Concrete instances used in witnesses and counterexamples -/

/-- A concrete field, constant 1, used to exhibit concrete evaluations. -/
def f3one : Field3D :=
  { data := fun _ _ _ => 1, loc := CellLoc.CELL_CENTRE }

/-- A concrete mesh for the derivative library: unit spacings, `G1_13 = 1`,
all other Christoffel components zero, uniform grid, no integrated shear,
and index-space primitives that return the zero field at the requested
location. -/
def M0 : MeshD :=
  { coords :=
      { dx := Field2D.ofConst 1, dy := Field2D.ofConst 1, dz := 1,
        d1_dx := Field2D.ofConst 1, d1_dy := Field2D.ofConst 1,
        non_uniform := false,
        G1_13 := Field2D.ofConst 1, G2_13 := Field2D.ofConst 0,
        G3_13 := Field2D.ofConst 0, G1_23 := Field2D.ofConst 0,
        G2_23 := Field2D.ofConst 0, G3_23 := Field2D.ofConst 0,
        G1_33 := Field2D.ofConst 0, G2_33 := Field2D.ofConst 0,
        G3_33 := Field2D.ofConst 0, IntShiftTorsion := Field2D.ofConst 0 },
    IncIntShear := false,
    indexDDX3 := fun _ outloc _ => { data := fun _ _ _ => 0, loc := outloc },
    indexDDY3 := fun _ outloc _ => { data := fun _ _ _ => 0, loc := outloc },
    indexDDZ3 := fun _ outloc _ _ => { data := fun _ _ _ => 0, loc := outloc },
    indexD2DX2_3 := fun _ outloc _ => { data := fun _ _ _ => 0, loc := outloc },
    indexD2DY2_3 := fun _ outloc _ => { data := fun _ _ _ => 0, loc := outloc },
    indexD2DZ2_3 := fun _ outloc _ _ => { data := fun _ _ _ => 0, loc := outloc },
    indexDDX2 := fun _ => Field2D.ofConst 0,
    indexDDY2 := fun _ => Field2D.ofConst 0,
    indexD2DX2_2 := fun _ => Field2D.ofConst 0,
    indexD2DY2_2 := fun _ => Field2D.ofConst 0,
    indexVDDX := fun _ _ outloc _ => { data := fun _ _ _ => 0, loc := outloc },
    indexVDDY := fun _ _ outloc _ => { data := fun _ _ _ => 0, loc := outloc },
    indexVDDZ := fun _ _ outloc _ => { data := fun _ _ _ => 0, loc := outloc },
    indexFDDX3 := fun _ _ outloc _ => { data := fun _ _ _ => 0, loc := outloc },
    indexFDDY3 := fun _ _ outloc _ => { data := fun _ _ _ => 0, loc := outloc },
    indexFDDZ3 := fun _ _ outloc _ => { data := fun _ _ _ => 0, loc := outloc },
    indexFDDX2 := fun _ _ _ _ => Field2D.ofConst 0,
    indexFDDY2 := fun _ _ _ _ => Field2D.ofConst 0,
    interp3 := fun f _ => f.data }

/-- The same concrete mesh with the non-uniform flag raised. -/
def M1 : MeshD :=
  { M0 with coords := { M0.coords with non_uniform := true } }

/-- A concrete codec mesh: one guard cell on each side, a 1×1 bulk, one
lower-Y and one upper-Y boundary point, two toroidal grid points
(one evolved plane). -/
def mC : Mesh :=
  { xstart := 1, xend := 1, ystart := 1, yend := 1, ngx := 3, ngy := 3,
    ngz := 2, firstX := true, lastX := true, lowerY := [1], upperY := [1] }

/-- A concrete registry for the codec: one allocated 2D and one allocated 3D
variable, no vectors. -/
def sC : SState :=
  { f2d := [{ var := some (fun x y => (x : BoutReal) + 2 * (y : BoutReal)),
              F_var := fun _ _ => 3 }],
    f3d := [{ var := some (fun x y z => (x : BoutReal) + (y : BoutReal) * (z : BoutReal)),
              F_var := fun _ _ _ => 4,
              location := CellLoc.CELL_CENTRE, varLoc := CellLoc.CELL_CENTRE }],
    v2d := [], v3d := [] }

/-- A concrete loop state over `sC` with a zero buffer. -/
def aC : LState :=
  { s := sC, buf := fun _ => 0, p := 0 }

/-- A concrete registry whose single 2D variable is unallocated. -/
def sBad : SState :=
  { f2d := [{ var := none, F_var := fun _ _ => 0 }],
    f3d := [], v2d := [], v3d := [] }

/-- A concrete driver state: next output at time 1, interval 1. -/
def sDrv : PetscSolverState :=
  { simtime := 0, next_time := 1, tstep := 1, iteration := 0,
    rhs_ncalls := 3, rhs_wtime := 7, outputnext := true }

/-! ### Helper lemmas: lists -/

theorem length_modifyAt (l : List α) (i : Nat) (f : α → α) :
    (modifyAt l i f).length = l.length := by
  induction l generalizing i with
  | nil => rfl
  | cons a l ih => cases i <;> simp [modifyAt, ih]

theorem getElem?_modifyAt_self (l : List α) (i : Nat) (f : α → α) :
    (modifyAt l i f)[i]? = (l[i]?).map f := by
  induction l generalizing i with
  | nil => cases i <;> rfl
  | cons a l ih => cases i <;> simp [modifyAt, ih]

theorem getElem?_modifyAt_ne (l : List α) (i j : Nat) (f : α → α) (h : j ≠ i) :
    (modifyAt l i f)[j]? = l[j]? := by
  induction l generalizing i j with
  | nil => cases i <;> rfl
  | cons a l ih =>
    cases i with
    | zero =>
      cases j with
      | zero => exact absurd rfl h
      | succ j => simp [modifyAt]
    | succ i =>
      cases j with
      | zero => simp [modifyAt]
      | succ j => simpa [modifyAt] using ih i j (fun hj => h (by omega))

theorem foldl_flatMap (f : β → α → β) (g : γ → List α) (l : List γ) (b : β) :
    (l.flatMap g).foldl f b = l.foldl (fun x c => (g c).foldl f x) b := by
  induction l generalizing b with
  | nil => rfl
  | cons c l ih => simp [List.flatMap_cons, List.foldl_append, ih]

theorem foldl_fixed_of (f : β → α → β) (l : List α) (b : β) (h : ∀ a, f b a = b) :
    l.foldl f b = b := by
  induction l with
  | nil => rfl
  | cons a l ih => simp [List.foldl_cons, h, ih]

/-! ### Helper lemmas: slot reads and writes -/

/-- A slot's variable index is within the registry bounds `n2` / `n3`. -/
def slotIdxLT (n2 n3 : Nat) : Slot → Prop
  | .s2 i _ _ => i < n2
  | .s3 i _ _ _ => i < n3

/-- A slot refers to an in-range, allocated variable of the registry. -/
def slotOK (s : SState) : Slot → Prop
  | .s2 i _ _ => ∃ vs, s.f2d[i]? = some vs ∧ vs.var.isSome
  | .s3 i _ _ _ => ∃ vs, s.f3d[i]? = some vs ∧ vs.var.isSome

theorem slotVal_setSlot_self (s : SState) (sl : Slot) (v : BoutReal)
    (h : slotOK s sl) :
    slotVal (setSlot s sl v) sl = v := by
  cases sl with
  | s2 i jx jy =>
    obtain ⟨vs, hget, hsome⟩ := h
    obtain ⟨d, hd⟩ := Option.isSome_iff_exists.mp hsome
    simp [slotVal, setSlot, getElem?_modifyAt_self, hget, hd, upd2]
  | s3 i jx jy jz =>
    obtain ⟨vs, hget, hsome⟩ := h
    obtain ⟨d, hd⟩ := Option.isSome_iff_exists.mp hsome
    simp [slotVal, setSlot, getElem?_modifyAt_self, hget, hd, upd3]

theorem slotVal_setSlot_ne (s : SState) (sl' sl : Slot) (v : BoutReal)
    (h : sl' ≠ sl) :
    slotVal (setSlot s sl' v) sl = slotVal s sl := by
  cases sl' with
  | s2 i' jx' jy' =>
    cases sl with
    | s2 i jx jy =>
      by_cases hi : i = i'
      · subst hi
        have hne : ¬(jx = jx' ∧ jy = jy') := by
          intro ⟨h1, h2⟩; exact h (by rw [h1, h2])
        cases hget : s.f2d[i]? with
        | none => simp [slotVal, setSlot, getElem?_modifyAt_self, hget]
        | some vs =>
          cases hvar : vs.var with
          | none => simp [slotVal, setSlot, getElem?_modifyAt_self, hget, hvar]
          | some d =>
            simp [slotVal, setSlot, getElem?_modifyAt_self, hget, hvar, upd2, hne]
      · simp [slotVal, setSlot, getElem?_modifyAt_ne _ _ _ _ hi]
    | s3 i jx jy jz => simp [slotVal, setSlot]
  | s3 i' jx' jy' jz' =>
    cases sl with
    | s2 i jx jy => simp [slotVal, setSlot]
    | s3 i jx jy jz =>
      by_cases hi : i = i'
      · subst hi
        have hne : ¬(jx = jx' ∧ jy = jy' ∧ jz = jz') := by
          intro ⟨h1, h2, h3⟩; exact h (by rw [h1, h2, h3])
        cases hget : s.f3d[i]? with
        | none => simp [slotVal, setSlot, getElem?_modifyAt_self, hget]
        | some vs =>
          cases hvar : vs.var with
          | none => simp [slotVal, setSlot, getElem?_modifyAt_self, hget, hvar]
          | some d =>
            simp [slotVal, setSlot, getElem?_modifyAt_self, hget, hvar, upd3, hne]
      · simp [slotVal, setSlot, getElem?_modifyAt_ne _ _ _ _ hi]

theorem slotOK_setSlot (s : SState) (sl' sl : Slot) (v : BoutReal)
    (h : slotOK s sl) :
    slotOK (setSlot s sl' v) sl := by
  cases sl' with
  | s2 i' jx' jy' =>
    cases sl with
    | s2 i jx jy =>
      obtain ⟨vs, hget, hsome⟩ := h
      by_cases hi : i = i'
      · subst hi
        refine ⟨{ vs with var := vs.var.map (fun d => upd2 d jx' jy' v) }, ?_, ?_⟩
        · simp [setSlot, getElem?_modifyAt_self, hget]
        · cases hvar : vs.var with
          | none => rw [hvar] at hsome; simp at hsome
          | some d => simp [hvar]
      · exact ⟨vs, by simp [setSlot, getElem?_modifyAt_ne _ _ _ _ hi, hget], hsome⟩
    | s3 i jx jy jz => exact h
  | s3 i' jx' jy' jz' =>
    cases sl with
    | s2 i jx jy => exact h
    | s3 i jx jy jz =>
      obtain ⟨vs, hget, hsome⟩ := h
      by_cases hi : i = i'
      · subst hi
        refine ⟨{ vs with var := vs.var.map (fun d => upd3 d jx' jy' jz' v) }, ?_, ?_⟩
        · simp [setSlot, getElem?_modifyAt_self, hget]
        · cases hvar : vs.var with
          | none => rw [hvar] at hsome; simp at hsome
          | some d => simp [hvar]
      · exact ⟨vs, by simp [setSlot, getElem?_modifyAt_ne _ _ _ _ hi, hget], hsome⟩

/-! ### Helper lemmas: the codec loops follow the canonical slot order -/

theorem applySlot_lengths (op : SVarOp) (a : LState) (sl : Slot) :
    (applySlot op a sl).s.f2d.length = a.s.f2d.length ∧
    (applySlot op a sl).s.f3d.length = a.s.f3d.length := by
  cases op <;> cases sl <;> simp [applySlot, setSlot, length_modifyAt]

theorem foldl_applySlot_lengths (op : SVarOp) (l : List Slot) (a : LState) :
    (l.foldl (applySlot op) a).s.f2d.length = a.s.f2d.length ∧
    (l.foldl (applySlot op) a).s.f3d.length = a.s.f3d.length := by
  induction l generalizing a with
  | nil => exact ⟨rfl, rfl⟩
  | cons sl l ih =>
    simp only [List.foldl_cons]
    exact ⟨(ih _).1.trans (applySlot_lengths op a sl).1,
      (ih _).2.trans (applySlot_lengths op a sl).2⟩

theorem loop_vars_op_eq (nz jx jy : Nat) (op : SVarOp) (a : LState) :
    loop_vars_op nz jx jy op a =
      (specSlotsAt a.s.f2d.length a.s.f3d.length nz jx jy).foldl (applySlot op) a := by
  cases op <;>
    simp [loop_vars_op, specSlotsAt, List.foldl_append, List.foldl_map,
      foldl_flatMap, applySlot]

theorem foldl_points_eq (op : SVarOp) (nz : Nat) (pts : List (Nat × Nat))
    (a : LState) :
    pts.foldl (fun x q => loop_vars_op nz q.1 q.2 op x) a =
      (pts.flatMap
          (fun q => specSlotsAt a.s.f2d.length a.s.f3d.length nz q.1 q.2)).foldl
        (applySlot op) a := by
  induction pts generalizing a with
  | nil => rfl
  | cons q pts ih =>
    simp only [List.foldl_cons, List.flatMap_cons, List.foldl_append]
    rw [ih, ← loop_vars_op_eq]
    have h2 : (loop_vars_op nz q.1 q.2 op a).s.f2d.length = a.s.f2d.length := by
      rw [loop_vars_op_eq]; exact (foldl_applySlot_lengths _ _ _).1
    have h3 : (loop_vars_op nz q.1 q.2 op a).s.f3d.length = a.s.f3d.length := by
      rw [loop_vars_op_eq]; exact (foldl_applySlot_lengths _ _ _).2
    rw [h2, h3]

theorem foldl_nested (f : β → Nat × Nat → β) (out : List γ) (inner : List Nat)
    (mk : γ → Nat → Nat × Nat) (b : β) :
    out.foldl (fun x c => inner.foldl (fun y d => f y (mk c d)) x) b =
      (out.flatMap (fun c => inner.map (mk c))).foldl f b := by
  rw [foldl_flatMap]
  induction out generalizing b with
  | nil => rfl
  | cons c out ih => simp only [List.foldl_cons, List.foldl_map, ih]

theorem specInnerX_foldl (m : Mesh) (op : SVarOp) (b : LState) :
    (specInnerX m).foldl (fun x q => loop_vars_op (m.ngz - 1) q.1 q.2 op x) b =
      if m.firstX then
        (List.range m.xstart).foldl
          (fun x jx => (List.range (m.yend + 1 - m.ystart)).foldl
            (fun y jy => loop_vars_op (m.ngz - 1) jx (jy + m.ystart) op y) x) b
      else b := by
  rw [specInnerX]
  by_cases hF : m.firstX
  · rw [if_pos hF, if_pos hF, ← foldl_nested]
  · rw [if_neg hF, if_neg hF]; rfl

theorem specLowerY_foldl (m : Mesh) (op : SVarOp) (b : LState) :
    (specLowerY m).foldl (fun x q => loop_vars_op (m.ngz - 1) q.1 q.2 op x) b =
      m.lowerY.foldl
        (fun x xi => (List.range m.ystart).foldl
          (fun y jy => loop_vars_op (m.ngz - 1) xi jy op y) x) b := by
  rw [specLowerY, ← foldl_nested]

theorem specBulk_foldl (m : Mesh) (op : SVarOp) (b : LState) :
    (specBulk m).foldl (fun x q => loop_vars_op (m.ngz - 1) q.1 q.2 op x) b =
      (rangeLE m.xstart m.xend).foldl
        (fun x jx => (rangeLE m.ystart m.yend).foldl
          (fun y jy => loop_vars_op (m.ngz - 1) jx jy op y) x) b := by
  rw [specBulk, ← foldl_nested]

theorem specUpperY_foldl (m : Mesh) (op : SVarOp) (b : LState) :
    (specUpperY m).foldl (fun x q => loop_vars_op (m.ngz - 1) q.1 q.2 op x) b =
      m.upperY.foldl
        (fun x xi => (rangeLT (m.yend + 1) m.ngy).foldl
          (fun y jy => loop_vars_op (m.ngz - 1) xi jy op y) x) b := by
  rw [specUpperY, ← foldl_nested]

theorem specOuterX_foldl (m : Mesh) (op : SVarOp) (b : LState) :
    (specOuterX m).foldl (fun x q => loop_vars_op (m.ngz - 1) q.1 q.2 op x) b =
      if m.lastX then
        (rangeLT (m.xend + 1) m.ngx).foldl
          (fun x jx => (rangeLE m.ystart m.yend).foldl
            (fun y jy => loop_vars_op (m.ngz - 1) jx jy op y) x) b
      else b := by
  rw [specOuterX]
  by_cases hL : m.lastX
  · rw [if_pos hL, if_pos hL, ← foldl_nested]
  · rw [if_neg hL, if_neg hL]; rfl

theorem loop_vars_points_eq (m : Mesh) (op : SVarOp) (a : LState) :
    loop_vars m op a =
      (specPoints m).foldl (fun x q => loop_vars_op (m.ngz - 1) q.1 q.2 op x) a := by
  unfold loop_vars
  rw [specPoints, List.foldl_append, List.foldl_append, List.foldl_append,
    List.foldl_append, specInnerX_foldl, specLowerY_foldl, specBulk_foldl,
    specUpperY_foldl, specOuterX_foldl]

/-- The central refinement: every codec operation walks the registry in the
spec's canonical flat-buffer order, one slot-sized step per buffer
position. -/
theorem loop_vars_eq_spec (m : Mesh) (op : SVarOp) (a : LState) :
    loop_vars m op a =
      (specTraversal m a.s.f2d.length a.s.f3d.length).foldl (applySlot op) a := by
  rw [loop_vars_points_eq, specTraversal, ← foldl_points_eq]

/-! ### Helper lemmas: buffer contents written by the SAVE modes -/

/-- The value a SAVE-mode operation writes for a slot. -/
def readOf : SVarOp → SState → Slot → BoutReal
  | .LOAD_VARS => fun _ _ => 0
  | .SAVE_VARS => slotVal
  | .SAVE_DERIVS => slotFVal

theorem applySlot_save_s (op : SVarOp) (hop : op ≠ .LOAD_VARS) (a : LState)
    (sl : Slot) :
    (applySlot op a sl).s = a.s := by
  cases op with
  | LOAD_VARS => exact absurd rfl hop
  | SAVE_VARS => rfl
  | SAVE_DERIVS => rfl

theorem applySlot_save_eq (op : SVarOp) (hop : op ≠ .LOAD_VARS) (a : LState)
    (sl : Slot) :
    applySlot op a sl =
      { a with buf := updB a.buf a.p (readOf op a.s sl), p := a.p + 1 } := by
  cases op with
  | LOAD_VARS => exact absurd rfl hop
  | SAVE_VARS => rfl
  | SAVE_DERIVS => rfl

theorem foldl_save_buf_lt (op : SVarOp) (hop : op ≠ .LOAD_VARS) (l : List Slot)
    (a : LState) (q : Nat) (hq : q < a.p) :
    (l.foldl (applySlot op) a).buf q = a.buf q := by
  induction l generalizing a with
  | nil => rfl
  | cons sl l ih =>
    simp only [List.foldl_cons]
    rw [applySlot_save_eq op hop]
    rw [ih _ (by simpa using Nat.lt_succ_of_lt hq)]
    simp [updB, Nat.ne_of_lt hq]

theorem foldl_save_buf_get (op : SVarOp) (hop : op ≠ .LOAD_VARS) (l : List Slot)
    (a : LState) (k : Nat) (sl : Slot) (hk : l[k]? = some sl) :
    (l.foldl (applySlot op) a).buf (a.p + k) = readOf op a.s sl := by
  induction l generalizing a k with
  | nil => simp at hk
  | cons sl' l ih =>
    cases k with
    | zero =>
      simp only [List.getElem?_cons_zero, Option.some.injEq] at hk
      subst hk
      simp only [List.foldl_cons]
      rw [applySlot_save_eq op hop, foldl_save_buf_lt op hop _ _ _ (by simp)]
      simp [updB]
    | succ k =>
      simp only [List.getElem?_cons_succ] at hk
      simp only [List.foldl_cons]
      have hthis := ih (applySlot op a sl') k hk
      have hp : (applySlot op a sl').p = a.p + 1 := by cases op <;> rfl
      have hs := applySlot_save_s op hop a sl'
      rw [hp, hs] at hthis
      have harith : a.p + 1 + k = a.p + (k + 1) := by omega
      rw [harith] at hthis
      exact hthis

/-! ### Helper lemmas: field contents written by the LOAD mode -/

theorem applySlot_load_eq (a : LState) (sl : Slot) :
    applySlot .LOAD_VARS a sl =
      { a with s := setSlot a.s sl (a.buf a.p), p := a.p + 1 } := rfl

theorem foldl_load_slotVal (l : List Slot) (a : LState) (sl : Slot) (v : BoutReal)
    (hOK : slotOK a.s sl)
    (hbuf : ∀ k sl', l[k]? = some sl' → sl' = sl → a.buf (a.p + k) = v)
    (hinit : slotVal a.s sl = v ∨ sl ∈ l) :
    slotVal ((l.foldl (applySlot .LOAD_VARS) a).s) sl = v := by
  induction l generalizing a with
  | nil =>
    rcases hinit with h | h
    · exact h
    · simp at h
  | cons sl' l ih =>
    simp only [List.foldl_cons]
    set a1 := applySlot .LOAD_VARS a sl' with ha1
    have hs1 : a1.s = setSlot a.s sl' (a.buf a.p) := rfl
    have hb1 : a1.buf = a.buf := rfl
    have hp1 : a1.p = a.p + 1 := rfl
    have hOK1 : slotOK a1.s sl := by rw [hs1]; exact slotOK_setSlot _ _ _ _ hOK
    have hbuf1 : ∀ k s', l[k]? = some s' → s' = sl → a1.buf (a1.p + k) = v := by
      intro k s' hget hEq
      rw [hb1, hp1, Nat.add_right_comm a.p 1 k]
      exact hbuf (k + 1) s' (by simpa using hget) hEq
    by_cases hsl : sl' = sl
    · subst hsl
      refine ih a1 hOK1 hbuf1 (Or.inl ?_)
      rw [hs1, slotVal_setSlot_self _ _ _ hOK]
      exact hbuf 0 sl' (by simp) rfl
    · refine ih a1 hOK1 hbuf1 ?_
      rcases hinit with h | h
      · exact Or.inl (by rw [hs1, slotVal_setSlot_ne _ _ _ _ hsl, h])
      · rcases List.mem_cons.mp h with h | h
        · exact absurd h.symm hsl
        · exact Or.inr h

/-- A slot of the canonical traversal has an in-range variable index. -/
theorem specTraversal_index_lt (m : Mesh) (n2 n3 : Nat) (sl : Slot)
    (h : sl ∈ specTraversal m n2 n3) :
    slotIdxLT n2 n3 sl := by
  rw [specTraversal] at h
  obtain ⟨q, -, hq⟩ := List.mem_flatMap.mp h
  rw [specSlotsAt] at hq
  rcases List.mem_append.mp hq with h' | h'
  · obtain ⟨i, hi, hEq⟩ := List.mem_map.mp h'
    subst hEq
    simpa [slotIdxLT] using hi
  · obtain ⟨jz, -, h''⟩ := List.mem_flatMap.mp h'
    obtain ⟨i, hi, hEq⟩ := List.mem_map.mp h''
    subst hEq
    simpa [slotIdxLT] using hi

/-! ### Helper lemmas: the save and load wrappers -/

theorem foldl_save_s (op : SVarOp) (hop : op ≠ .LOAD_VARS) (l : List Slot)
    (a : LState) :
    (l.foldl (applySlot op) a).s = a.s := by
  induction l generalizing a with
  | nil => rfl
  | cons sl l ih =>
    simp only [List.foldl_cons]
    rw [ih, applySlot_save_s op hop]

theorem slotVal_vflags (x : SState) (l2 l3 : List VecStr) (sl : Slot) :
    slotVal { x with v2d := l2, v3d := l3 } sl = slotVal x sl := by
  cases sl <;> rfl

theorem allocAll_f2d_length (s : SState) : (allocAll s).f2d.length = s.f2d.length := by
  simp [allocAll]

theorem allocAll_f3d_length (s : SState) : (allocAll s).f3d.length = s.f3d.length := by
  simp [allocAll]

theorem allocAll_slotVal (s : SState) (sl : Slot) :
    slotVal (allocAll s) sl = slotVal s sl := by
  cases sl with
  | s2 i jx jy =>
    simp only [slotVal, allocAll, List.getElem?_map]
    cases hget : s.f2d[i]? with
    | none => rfl
    | some vs => cases hvar : vs.var <;> simp [hvar]
  | s3 i jx jy jz =>
    simp only [slotVal, allocAll, List.getElem?_map]
    cases hget : s.f3d[i]? with
    | none => rfl
    | some vs => cases hvar : vs.var <;> simp [hvar]

theorem allocAll_slotOK (s : SState) (sl : Slot)
    (h : slotIdxLT s.f2d.length s.f3d.length sl) :
    slotOK (allocAll s) sl := by
  cases sl with
  | s2 i jx jy =>
    have hlt : i < s.f2d.length := h
    have hvs : s.f2d[i]? = some s.f2d[i] := List.getElem?_eq_getElem hlt
    refine ⟨{ var := some ((s.f2d[i]).var.getD (fun _ _ => 0)),
              F_var := (s.f2d[i]).F_var }, ?_, rfl⟩
    simp [allocAll, List.getElem?_map, hvs]
  | s3 i jx jy jz =>
    have hlt : i < s.f3d.length := h
    have hvs : s.f3d[i]? = some s.f3d[i] := List.getElem?_eq_getElem hlt
    refine ⟨{ var := some ((s.f3d[i]).var.getD (fun _ _ _ => 0)),
              F_var := (s.f3d[i]).F_var, location := (s.f3d[i]).location,
              varLoc := (s.f3d[i]).location }, ?_, rfl⟩
    simp [allocAll, List.getElem?_map, hvs]

theorem reconcile2_matched (T : Nat → SState → SState) (i : Nat) (s : SState)
    (h : ∀ w ∈ s.v2d, w.curCovariant = w.covariant) :
    reconcile2 T i s = s := by
  unfold reconcile2
  split
  · rfl
  next w hg =>
    rw [if_pos (h w (List.getElem?_mem hg))]

theorem reconcile3_matched (T : Nat → SState → SState) (i : Nat) (s : SState)
    (h : ∀ w ∈ s.v3d, w.curCovariant = w.covariant) :
    reconcile3 T i s = s := by
  unfold reconcile3
  split
  · rfl
  next w hg =>
    rw [if_pos (h w (List.getElem?_mem hg))]

theorem reconcileAll_matched (T2 T3 : Nat → SState → SState) (s : SState)
    (hv2 : ∀ w ∈ s.v2d, w.curCovariant = w.covariant)
    (hv3 : ∀ w ∈ s.v3d, w.curCovariant = w.covariant) :
    reconcileAll T2 T3 s = s := by
  simp only [reconcileAll]
  rw [foldl_fixed_of (fun a i => reconcile2 T2 i a) (List.range s.v2d.length) s
    (fun i => reconcile2_matched T2 i s hv2)]
  exact foldl_fixed_of (fun a i => reconcile3 T3 i a) (List.range s.v3d.length) s
    (fun i => reconcile3_matched T3 i s hv3)

theorem save_vars_allocated (T2 T3 : Nat → SState → SState) (m : Mesh)
    (s : SState) (buf : Nat → BoutReal)
    (h2 : ∀ vs ∈ s.f2d, vs.var.isSome) (h3 : ∀ vs ∈ s.f3d, vs.var.isSome)
    (hv2 : ∀ w ∈ s.v2d, w.curCovariant = w.covariant)
    (hv3 : ∀ w ∈ s.v3d, w.curCovariant = w.covariant) :
    save_vars T2 T3 m s buf =
      (0, s, (loop_vars m .SAVE_VARS { s := s, buf := buf, p := 0 }).buf) := by
  have hno2 : s.f2d.any (fun vs => vs.var.isNone) = false := by
    simp only [List.any_eq_false]
    intro vs hvs
    simp [Option.isNone_iff_eq_none]
    exact Option.isSome_iff_ne_none.mp (h2 vs hvs)
  have hno3 : s.f3d.any (fun vs => vs.var.isNone) = false := by
    simp only [List.any_eq_false]
    intro vs hvs
    simp [Option.isNone_iff_eq_none]
    exact Option.isSome_iff_ne_none.mp (h3 vs hvs)
  simp only [save_vars, hno2, hno3, Bool.false_eq_true, if_false,
    reconcileAll_matched T2 T3 s hv2 hv3]
  have hs : (loop_vars m .SAVE_VARS { s := s, buf := buf, p := 0 }).s = s := by
    rw [loop_vars_eq_spec]
    exact foldl_save_s _ (by simp) _ _
  rw [hs]

/-! ### Claim theorems -/

/-- Claim C1: all three codec operations (LOAD_VARS, SAVE_VARS, SAVE_DERIVS)
traverse the mesh in the same fixed order — inner-X boundary stripe (only on
the owning process, X outer, Y inner), lower-Y boundary region (iterator
outer, Y inner), interior bulk (X outer, Y inner), upper-Y boundary region,
outer-X boundary stripe (only on the owning process) — and at each visited
point the flat-buffer positions hold all registered 2D variables in
registration order followed, for each toroidal plane `0 … planes-1`, by all
registered 3D variables in registration order: every operation equals the
fold of its one-slot action over the spec's canonical slot list, and with the
position counter starting at 0 the SAVE modes place the value of the `k`-th
canonical slot at buffer position `k`. -/
theorem C1_traversal_order (m : Mesh) (a : LState) :
    (∀ op, loop_vars m op a =
      (specTraversal m a.s.f2d.length a.s.f3d.length).foldl (applySlot op) a) ∧
    (a.p = 0 →
      ∀ k sl, (specTraversal m a.s.f2d.length a.s.f3d.length)[k]? = some sl →
        (loop_vars m .SAVE_VARS a).buf k = slotVal a.s sl ∧
        (loop_vars m .SAVE_DERIVS a).buf k = slotFVal a.s sl) := by
  refine ⟨fun op => loop_vars_eq_spec m op a, ?_⟩
  intro hp k sl hk
  constructor
  · rw [loop_vars_eq_spec]
    have hg := foldl_save_buf_get .SAVE_VARS (by decide) _ a k sl hk
    rw [hp, Nat.zero_add] at hg
    exact hg
  · rw [loop_vars_eq_spec]
    have hg := foldl_save_buf_get .SAVE_DERIVS (by decide) _ a k sl hk
    rw [hp, Nat.zero_add] at hg
    exact hg

/-- Witness for C1 at a concrete mesh and registry: the first canonical slot
is the first 2D variable at the inner-X guard point `(0, 1)`, and SAVE_VARS
puts its value at buffer position 0. -/
theorem C1_traversal_order_witness :
    aC.p = 0 ∧
    (specTraversal mC aC.s.f2d.length aC.s.f3d.length)[0]? = some (Slot.s2 0 0 1) ∧
    (loop_vars mC .SAVE_VARS aC).buf 0 = slotVal aC.s (Slot.s2 0 0 1) :=
  ⟨rfl, by decide,
    ((C1_traversal_order mC aC).2 rfl 0 (Slot.s2 0 0 1) (by decide)).1⟩

/-- Claim C2, counterexample: in `PetscSolver::rhs`, at the concrete state
with previous output time 1 and interval 1, triggered at `t = 3/2`, the next
output time becomes `t + tstep = 5/2`, not the previous output time plus the
interval (2) — the code computes `next_time = simtime + tstep` with
`simtime = t`, exactly the `t + interval` form the claim excludes. -/
theorem C2_counterexample :
    (3 / 2 : BoutReal) ≥ sDrv.next_time ∧
    (rhsMonitor sDrv (3 / 2)).next_time ≠ sDrv.next_time + sDrv.tstep := by
  constructor
  · norm_num [sDrv]
  · norm_num [rhsMonitor, sDrv]

/-- Claim C2 (amended): in the residual callback, whenever `t` has reached or
passed the next scheduled output time (an inequality test, not a
floating-point equality test), the driver increments the iteration counter,
resets the per-interval performance counters (residual-call count and wall
time), clears the output flag, and sets the next output time to the *current
time* `t` plus the fixed output interval (the code computes
`next_time = simtime + tstep` after `simtime = t`); otherwise only the
recorded simulation time changes. -/
theorem C2_output_scheduling (s : PetscSolverState) (t : BoutReal) :
    (t ≥ s.next_time →
      rhsMonitor s t =
        { simtime := t, next_time := t + s.tstep, tstep := s.tstep,
          iteration := s.iteration + 1, rhs_ncalls := 0, rhs_wtime := 0,
          outputnext := false }) ∧
    (¬ t ≥ s.next_time → rhsMonitor s t = { s with simtime := t }) := by
  constructor
  · intro h
    simp [rhsMonitor, h]
  · intro h
    simp [rhsMonitor, h]

/-- Witness for C2 (amended) at a concrete state: `t = 3/2` triggers and the
next output time becomes `3/2 + 1`. -/
theorem C2_output_scheduling_witness :
    (3 / 2 : BoutReal) ≥ sDrv.next_time ∧
      rhsMonitor sDrv (3 / 2) =
        { simtime := 3 / 2, next_time := 3 / 2 + sDrv.tstep, tstep := sDrv.tstep,
          iteration := sDrv.iteration + 1, rhs_ncalls := 0, rhs_wtime := 0,
          outputnext := false } :=
  ⟨by norm_num [sDrv], (C2_output_scheduling sDrv (3 / 2)).1 (by norm_num [sDrv])⟩

/-- Claim C3: with every registered variable's backing storage allocated and
every vector already in its declared basis, SAVE (`save_vars`) followed by
LOAD (`load_vars`) from the produced buffer reproduces every variable's value
exactly at every slot visited by the codec traversal — interior and boundary
points alike, for nonzero 2D and 3D variable counts and any number of
toroidal planes (any `ngz`), and for arbitrary basis-transformation
functions. -/
theorem C3_roundtrip (T2 T3 : Nat → SState → SState) (m : Mesh) (s : SState)
    (buf : Nat → BoutReal)
    (h2 : ∀ vs ∈ s.f2d, vs.var.isSome) (h3 : ∀ vs ∈ s.f3d, vs.var.isSome)
    (hv2 : ∀ w ∈ s.v2d, w.curCovariant = w.covariant)
    (hv3 : ∀ w ∈ s.v3d, w.curCovariant = w.covariant)
    (hn2 : 0 < s.f2d.length) (hn3 : 0 < s.f3d.length) :
    ∀ sl ∈ specTraversal m s.f2d.length s.f3d.length,
      slotVal (load_vars m (save_vars T2 T3 m s buf).2.1
        (save_vars T2 T3 m s buf).2.2) sl = slotVal s sl := by
  intro sl hsl
  have hidx := specTraversal_index_lt m s.f2d.length s.f3d.length sl hsl
  rw [save_vars_allocated T2 T3 m s buf h2 h3 hv2 hv3]
  show slotVal
      (load_vars m s ((loop_vars m .SAVE_VARS { s := s, buf := buf, p := 0 }).buf)) sl
    = slotVal s sl
  have hbufval : ∀ k sl',
      (specTraversal m s.f2d.length s.f3d.length)[k]? = some sl' →
      (loop_vars m .SAVE_VARS { s := s, buf := buf, p := 0 }).buf k = slotVal s sl' := by
    intro k sl' hk
    rw [loop_vars_eq_spec]
    have hg := foldl_save_buf_get .SAVE_VARS (by decide) _
      { s := s, buf := buf, p := 0 } k sl' hk
    rw [Nat.zero_add] at hg
    exact hg
  rw [load_vars]
  rw [slotVal_vflags]
  rw [loop_vars_eq_spec]
  dsimp only
  rw [allocAll_f2d_length, allocAll_f3d_length]
  refine foldl_load_slotVal _ _ sl (slotVal s sl)
    (allocAll_slotOK s sl hidx) ?_ (Or.inr hsl)
  intro k sl' hk hEq
  show (loop_vars m .SAVE_VARS { s := s, buf := buf, p := 0 }).buf (0 + k)
    = slotVal s sl
  rw [Nat.zero_add, hbufval k sl' hk, hEq]

/-- Witness for C3 at a concrete mesh and registry: the value of the first 2D
variable at the inner-X guard point `(0, 1)` survives the SAVE/LOAD round
trip. -/
theorem C3_roundtrip_witness :
    Slot.s2 0 0 1 ∈ specTraversal mC sC.f2d.length sC.f3d.length ∧
    slotVal (load_vars mC
        (save_vars (fun _ s => s) (fun _ s => s) mC sC (fun _ => 0)).2.1
        (save_vars (fun _ s => s) (fun _ s => s) mC sC (fun _ => 0)).2.2)
      (Slot.s2 0 0 1) = slotVal sC (Slot.s2 0 0 1) :=
  ⟨by decide,
    C3_roundtrip (fun _ s => s) (fun _ s => s) mC sC (fun _ => 0)
      (by decide) (by decide) (by decide) (by decide) (by decide) (by decide)
      (Slot.s2 0 0 1) (by decide)⟩

/-- Claim C4: `save_vars` fails (returns the nonzero status 1, handed back to
the caller rather than aborting) if and only if some registered 2D or 3D
variable's backing storage is unallocated, and on that failure nothing is
written to the flat buffer and no vector-basis conversion is performed: the
registry state and the buffer are returned unchanged. -/
theorem C4_save_vars_error (T2 T3 : Nat → SState → SState) (m : Mesh)
    (s : SState) (buf : Nat → BoutReal) :
    ((save_vars T2 T3 m s buf).1 = 1 ↔
      (∃ vs ∈ s.f2d, vs.var = none) ∨ (∃ vs ∈ s.f3d, vs.var = none)) ∧
    ((save_vars T2 T3 m s buf).1 = 1 →
      (save_vars T2 T3 m s buf).2.1 = s ∧ (save_vars T2 T3 m s buf).2.2 = buf) := by
  by_cases hA : s.f2d.any (fun vs => vs.var.isNone) = true
  · have he : save_vars T2 T3 m s buf = (1, s, buf) := by
      simp [save_vars, hA]
    refine ⟨⟨fun _ => ?_, fun _ => by rw [he]⟩, fun _ => by rw [he]; exact ⟨rfl, rfl⟩⟩
    obtain ⟨vs, hmem, hvs⟩ := List.any_eq_true.mp hA
    exact Or.inl ⟨vs, hmem, Option.isNone_iff_eq_none.mp hvs⟩
  · by_cases hB : s.f3d.any (fun vs => vs.var.isNone) = true
    · have he : save_vars T2 T3 m s buf = (1, s, buf) := by
        simp [save_vars, hA, hB]
      refine ⟨⟨fun _ => ?_, fun _ => by rw [he]⟩, fun _ => by rw [he]; exact ⟨rfl, rfl⟩⟩
      obtain ⟨vs, hmem, hvs⟩ := List.any_eq_true.mp hB
      exact Or.inr ⟨vs, hmem, Option.isNone_iff_eq_none.mp hvs⟩
    · have he : (save_vars T2 T3 m s buf).1 = 0 := by
        simp [save_vars, hA, hB]
      constructor
      · constructor
        · intro h1
          rw [he] at h1
          exact absurd h1 (by decide)
        · intro h
          rcases h with ⟨vs, hmem, hvs⟩ | ⟨vs, hmem, hvs⟩
          · exact absurd (List.any_eq_true.mpr
              ⟨vs, hmem, Option.isNone_iff_eq_none.mpr hvs⟩) hA
          · exact absurd (List.any_eq_true.mpr
              ⟨vs, hmem, Option.isNone_iff_eq_none.mpr hvs⟩) hB
      · intro h1
        rw [he] at h1
        exact absurd h1 (by decide)

/-- Witness for C4: with a single unallocated 2D variable, `save_vars`
returns status 1 and leaves registry and buffer untouched. -/
theorem C4_save_vars_error_witness :
    (save_vars (fun _ s => s) (fun _ s => s) mC sBad (fun _ => 0)).1 = 1 ∧
    (save_vars (fun _ s => s) (fun _ s => s) mC sBad (fun _ => 0)).2.1 = sBad ∧
    (save_vars (fun _ s => s) (fun _ s => s) mC sBad (fun _ => 0)).2.2 =
      (fun _ => (0 : BoutReal)) := by
  have h := C4_save_vars_error (fun _ s => s) (fun _ s => s) mC sBad (fun _ => 0)
  have h1 := h.1.mpr (Or.inl ⟨{ var := none, F_var := fun _ _ => 0 },
    by simp [sBad], rfl⟩)
  exact ⟨h1, (h.2 h1).1, (h.2 h1).2⟩

/-- Claim C5: with the mesh's non-uniform flag false, `D2DX2` and `D2DY2`
(both the 2D and the 3D overloads) return exactly the unmodified index-space
second derivative divided by the square of the local grid spacing, with no
correction term (for the 3D `D2DY2` under the mesh contract that the
index-space primitive returns the field at the requested location, so the
final `interp_to` passes it through); with the flag true, each additionally
adds `d1_dh * index_first_derivative / h`, the non-uniform-grid correction. -/
theorem C5_second_derivative_nonuniform (M : MeshD) (f3 : Field3D) (f2 : Field2D)
    (outloc : CellLoc) (method : DiffMethod) :
    (M.coords.non_uniform = false →
      (D2DX2_3D_lm M f3 outloc method =
        fdiv32 (M.indexD2DX2_3 f3 outloc method) (SQ2 M.coords.dx)) ∧
      ((M.indexD2DY2_3 f3 outloc method).loc = outloc →
        D2DY2_3D_lm M f3 outloc method =
          fdiv32 (M.indexD2DY2_3 f3 outloc method) (SQ2 M.coords.dy)) ∧
      (D2DX2_2D M f2 = fdiv22 (M.indexD2DX2_2 f2) (SQ2 M.coords.dx)) ∧
      (D2DY2_2D M f2 = fdiv22 (M.indexD2DY2_2 f2) (SQ2 M.coords.dy))) ∧
    (M.coords.non_uniform = true →
      (∀ x y z, (D2DX2_3D_lm M f3 outloc method).data x y z =
        (M.indexD2DX2_3 f3 outloc method).data x y z /
            (M.coords.dx.data x y * M.coords.dx.data x y) +
          M.coords.d1_dx.data x y *
            (M.indexDDX3 f3 outloc DiffMethod.DIFF_DEFAULT).data x y z /
            M.coords.dx.data x y) ∧
      ((M.indexD2DY2_3 f3 outloc method).loc = outloc →
        ∀ x y z, (D2DY2_3D_lm M f3 outloc method).data x y z =
          (M.indexD2DY2_3 f3 outloc method).data x y z /
              (M.coords.dy.data x y * M.coords.dy.data x y) +
            M.coords.d1_dy.data x y *
              (M.indexDDY3 f3 outloc DiffMethod.DIFF_DEFAULT).data x y z /
              M.coords.dy.data x y) ∧
      (∀ x y, (D2DX2_2D M f2).data x y =
        (M.indexD2DX2_2 f2).data x y /
            (M.coords.dx.data x y * M.coords.dx.data x y) +
          M.coords.d1_dx.data x y * (M.indexDDX2 f2).data x y /
            M.coords.dx.data x y) ∧
      (∀ x y, (D2DY2_2D M f2).data x y =
        (M.indexD2DY2_2 f2).data x y /
            (M.coords.dy.data x y * M.coords.dy.data x y) +
          M.coords.d1_dy.data x y * (M.indexDDY2 f2).data x y /
            M.coords.dy.data x y)) := by
  constructor
  · intro hu
    refine ⟨?_, ?_, ?_, ?_⟩
    · simp [D2DX2_3D_lm, hu]
    · intro hloc
      simp [D2DY2_3D_lm, hu, interp_to, fdiv32, hloc]
    · simp [D2DX2_2D, hu]
    · simp [D2DY2_2D, hu]
  · intro hu
    refine ⟨?_, ?_, ?_, ?_⟩
    · intro x y z
      simp [D2DX2_3D_lm, hu, fadd3, fdiv32, fmul23, SQ2, fmul22]
    · intro hloc x y z
      simp [D2DY2_3D_lm, hu, interp_to, fadd3, fdiv32, fmul23, SQ2, fmul22, hloc]
    · intro x y
      simp [D2DX2_2D, hu, fadd2, fdiv22, fmul22, SQ2]
    · intro x y
      simp [D2DY2_2D, hu, fadd2, fdiv22, fmul22, SQ2]

/-- Witness for C5: at the concrete uniform mesh `M0` the 3D `D2DX2` is the
bare quotient, and at the concrete non-uniform mesh `M1` the correction term
appears pointwise at the origin. -/
theorem C5_second_derivative_nonuniform_witness :
    M0.coords.non_uniform = false ∧
    (D2DX2_3D_lm M0 f3one CellLoc.CELL_CENTRE DiffMethod.DIFF_C2 =
      fdiv32 (M0.indexD2DX2_3 f3one CellLoc.CELL_CENTRE DiffMethod.DIFF_C2)
        (SQ2 M0.coords.dx)) ∧
    M1.coords.non_uniform = true ∧
    ((D2DX2_3D_lm M1 f3one CellLoc.CELL_CENTRE DiffMethod.DIFF_C2).data 0 0 0 =
      (M1.indexD2DX2_3 f3one CellLoc.CELL_CENTRE DiffMethod.DIFF_C2).data 0 0 0 /
          (M1.coords.dx.data 0 0 * M1.coords.dx.data 0 0) +
        M1.coords.d1_dx.data 0 0 *
          (M1.indexDDX3 f3one CellLoc.CELL_CENTRE DiffMethod.DIFF_DEFAULT).data 0 0 0 /
          M1.coords.dx.data 0 0) :=
  ⟨rfl,
    ((C5_second_derivative_nonuniform M0 f3one (Field2D.ofConst 1)
      CellLoc.CELL_CENTRE DiffMethod.DIFF_C2).1 rfl).1,
    rfl,
    ((C5_second_derivative_nonuniform M1 f3one (Field2D.ofConst 1)
      CellLoc.CELL_CENTRE DiffMethod.DIFF_C2).2 rfl).1 0 0 0⟩

/-- Claim C6: for every 3D vector `v`, `DDZ(v)` computes each result
component as the component's scalar Z-derivative corrected by
Christoffel-symbol metric terms — subtracting the covariant linear
combinations when `v` is covariant, adding the transposed combinations when
`v` is contravariant — the result carries the input's basis flag, and the
two formulas are distinct (they differ at a concrete metric and input). -/
theorem C6_DDZ_vector3D (M : MeshD) (v : Vector3D) (outloc : CellLoc)
    (method : DiffMethod) :
    ((DDZ_V3_lm M v outloc method).covariant = v.covariant) ∧
    (v.covariant = true → ∀ x y z,
      ((DDZ_V3_lm M v outloc method).x.data x y z =
        (DDZ_3D_lm M v.x outloc method false).data x y z -
          (v.x.data x y z * M.coords.G1_13.data x y +
           v.y.data x y z * M.coords.G2_13.data x y +
           v.z.data x y z * M.coords.G3_13.data x y)) ∧
      ((DDZ_V3_lm M v outloc method).y.data x y z =
        (DDZ_3D_lm M v.y outloc method false).data x y z -
          (v.x.data x y z * M.coords.G1_23.data x y +
           v.y.data x y z * M.coords.G2_23.data x y +
           v.z.data x y z * M.coords.G3_23.data x y)) ∧
      ((DDZ_V3_lm M v outloc method).z.data x y z =
        (DDZ_3D_lm M v.z outloc method false).data x y z -
          (v.x.data x y z * M.coords.G1_33.data x y +
           v.y.data x y z * M.coords.G2_33.data x y +
           v.z.data x y z * M.coords.G3_33.data x y))) ∧
    (v.covariant = false → ∀ x y z,
      ((DDZ_V3_lm M v outloc method).x.data x y z =
        (DDZ_3D_lm M v.x outloc method false).data x y z +
          (v.x.data x y z * M.coords.G1_13.data x y +
           v.y.data x y z * M.coords.G1_23.data x y +
           v.z.data x y z * M.coords.G1_33.data x y)) ∧
      ((DDZ_V3_lm M v outloc method).y.data x y z =
        (DDZ_3D_lm M v.y outloc method false).data x y z +
          (v.x.data x y z * M.coords.G2_13.data x y +
           v.y.data x y z * M.coords.G2_23.data x y +
           v.z.data x y z * M.coords.G2_33.data x y)) ∧
      ((DDZ_V3_lm M v outloc method).z.data x y z =
        (DDZ_3D_lm M v.z outloc method false).data x y z +
          (v.x.data x y z * M.coords.G3_13.data x y +
           v.y.data x y z * M.coords.G3_23.data x y +
           v.z.data x y z * M.coords.G3_33.data x y))) ∧
    ((DDZ_V3_lm M0 ⟨f3one, f3one, f3one, true⟩
        CellLoc.CELL_CENTRE DiffMethod.DIFF_DEFAULT).x.data 0 0 0 ≠
      (DDZ_V3_lm M0 ⟨f3one, f3one, f3one, false⟩
        CellLoc.CELL_CENTRE DiffMethod.DIFF_DEFAULT).x.data 0 0 0) := by
  refine ⟨?_, ?_, ?_, ?_⟩
  · cases hv : v.covariant <;> simp [DDZ_V3_lm, hv]
  · intro hv x y z
    refine ⟨?_, ?_, ?_⟩ <;>
      · simp only [DDZ_V3_lm, hv, if_true, fsub3, fmul32]
        ring
  · intro hv x y z
    refine ⟨?_, ?_, ?_⟩ <;>
      · simp only [DDZ_V3_lm, hv, Bool.false_eq_true, if_false, fadd3, fmul32]
        ring
  · norm_num [DDZ_V3_lm, DDZ_3D_lm, fsub3, fadd3, fmul32, fdivr3, M0, f3one,
      Field2D.ofConst]

/-- Witness for C6: the covariant formula evaluated at the concrete mesh
`M0` and the constant-1 vector. -/
theorem C6_DDZ_vector3D_witness :
    ((⟨f3one, f3one, f3one, true⟩ : Vector3D).covariant = true) ∧
    ((DDZ_V3_lm M0 ⟨f3one, f3one, f3one, true⟩
        CellLoc.CELL_CENTRE DiffMethod.DIFF_DEFAULT).x.data 0 0 0 =
      (DDZ_3D_lm M0 f3one CellLoc.CELL_CENTRE DiffMethod.DIFF_DEFAULT false).data 0 0 0 -
        (f3one.data 0 0 0 * M0.coords.G1_13.data 0 0 +
         f3one.data 0 0 0 * M0.coords.G2_13.data 0 0 +
         f3one.data 0 0 0 * M0.coords.G3_13.data 0 0)) :=
  ⟨rfl,
    ((C6_DDZ_vector3D M0 ⟨f3one, f3one, f3one, true⟩
      CellLoc.CELL_CENTRE DiffMethod.DIFF_DEFAULT).2.1 rfl 0 0 0).1⟩

/-- Claim C7, counterexample: `DDZ(Field2D)` does *not* carry the input's
cell-location tag — the code returns `Field2D(0.0)` whose location is the
default cell centre, so for an input at `CELL_YLOW` the output's location
differs from the input's. -/
theorem C7_counterexample :
    (DDZ_2D { data := fun _ _ => 5, loc := CellLoc.CELL_YLOW }).loc ≠
      ({ data := fun _ _ => 5, loc := CellLoc.CELL_YLOW } : Field2D).loc := by
  decide

/-- Claim C7 (amended): for every 2D scalar field `f` with arbitrary values,
`DDZ(f)` and `D2DZ2(f)` return a field identically zero at every point, at
the default cell-centre location (which coincides with the input's location
only when the input is itself at the cell centre); no mesh data enters the
result. -/
theorem C7_DDZ_2D_zero (f : Field2D) :
    (∀ x y, (DDZ_2D f).data x y = 0) ∧ (DDZ_2D f).loc = CellLoc.CELL_CENTRE ∧
    (∀ x y, (D2DZ2_2D f).data x y = 0) ∧ (D2DZ2_2D f).loc = CellLoc.CELL_CENTRE :=
  ⟨fun _ _ => rfl, rfl, fun _ _ => rfl, rfl⟩

/-- Claim C9: every derivative operator overload in `derivs.cxx` that accepts
both an output cell location and a differencing-method selector yields
identical results in method-then-location and location-then-method argument
order, for all inputs. -/
theorem C9_parameter_order (M : MeshD) :
    (∀ f outloc method, DDX_3D_ml M f method outloc = DDX_3D_lm M f outloc method) ∧
    (∀ f outloc method, DDY_3D_ml M f method outloc = DDY_3D_lm M f outloc method) ∧
    (∀ f outloc method b, DDZ_3D_ml M f method outloc b = DDZ_3D_lm M f outloc method b) ∧
    (∀ v outloc method, DDZ_V3_ml M v method outloc = DDZ_V3_lm M v outloc method) ∧
    (∀ f outloc method, D2DX2_3D_ml M f method outloc = D2DX2_3D_lm M f outloc method) ∧
    (∀ f outloc method, D2DY2_3D_ml M f method outloc = D2DY2_3D_lm M f outloc method) ∧
    (∀ f outloc method b, D2DZ2_3D_ml M f method outloc b = D2DZ2_3D_lm M f outloc method b) ∧
    (∀ v f outloc method, VDDX_ml M v f method outloc = VDDX_lm M v f outloc method) ∧
    (∀ v f outloc method, VDDY_ml M v f method outloc = VDDY_lm M v f outloc method) ∧
    (∀ v f outloc method, VDDZ_ml M v f method outloc = VDDZ_lm M v f outloc method) ∧
    (∀ v f outloc method, FDDX_2D_ml M v f method outloc = FDDX_2D_lm M v f outloc method) ∧
    (∀ v f outloc method, FDDX_3D_ml M v f method outloc = FDDX_3D_lm M v f outloc method) ∧
    (∀ v f outloc method, FDDY_2D_ml M v f method outloc = FDDY_2D_lm M v f outloc method) ∧
    (∀ v f outloc method, FDDY_3D_ml M v f method outloc = FDDY_3D_lm M v f outloc method) ∧
    (∀ v f outloc method, FDDZ_2D_ml v f method outloc = FDDZ_2D_lm v f outloc method) ∧
    (∀ v f outloc method, FDDZ_3D_ml M v f method outloc = FDDZ_3D_lm M v f outloc method) := by
  refine ⟨?_, ?_, ?_, ?_, ?_, ?_, ?_, ?_, ?_, ?_, ?_, ?_, ?_, ?_, ?_, ?_⟩ <;>
    intros <;> rfl

/-- Claim C10: for every 2D vector field `v`, `DDZ(v)` returns a 2D vector
whose three components are identically zero everywhere and whose basis flag
equals the input's basis flag (preserved, not normalised). -/
theorem C10_DDZ_vector2D (v : Vector2D) :
    (∀ x y, (DDZ_V2 v).x.data x y = 0) ∧
    (∀ x y, (DDZ_V2 v).y.data x y = 0) ∧
    (∀ x y, (DDZ_V2 v).z.data x y = 0) ∧
    (DDZ_V2 v).covariant = v.covariant :=
  ⟨fun _ _ => rfl, fun _ _ => rfl, fun _ _ => rfl, rfl⟩

/-- Claim C8: code evaluation at the failing input.  `PreStep` at time 0 with
proposed sub-step 2 and next output time 1 sets the `outputnext` flag but
leaves the integrator's stored sub-step at 2: the clamped value
`next_time - t = 1` is computed into a local variable and never written back
(no `TSSetTimeStep`), so the sub-step actually taken is not clamped to land
on the output time. -/
theorem C8_prestep_no_clamp :
    (PreStep { t := 0, dt := 2 } sDrv).1.dt = 2 ∧
    (PreStep { t := 0, dt := 2 } sDrv).2.outputnext = true ∧
    sDrv.next_time - (0 : BoutReal) ≠ 2 := by
  refine ⟨?_, ?_, ?_⟩
  · norm_num [PreStep, sDrv]
  · norm_num [PreStep, sDrv]
  · norm_num [sDrv]

end BoutV
